import Mathlib

/-!
Shallow embedding of the playlist-building pipeline of `aligator/tidal-playlist`
(Go).  The builder package (FilterArtists, selectRandomItems, CollectTracks,
BuildPlaylist) and the client helper CreateOrUpdatePlaylist are translated to
pure Lean functions.  Remote API calls are modelled by an oracle record, the
process-global random source by a stream `r : Nat → Nat` consumed at successive
positions (`rand.Intn n` becomes `r pos % n`, a panic when `n = 0`), and remote
mutations by an explicit event trace.  Go panics (nil-pointer dereference,
`rand.Intn` on a non-positive bound) are explicit error values.
-/

namespace TidalPlaylist

/-- Go `models.ArtistID`: a favorite-artist record holding only the identifier. -/
structure ArtistID where
  id : String
deriving DecidableEq

/-- Go `models.Artist.Attributes`: the nested attributes object with the name. -/
structure ArtistAttributes where
  name : String
deriving DecidableEq

/-- Go `models.Artist`: identifier plus attributes. -/
structure Artist where
  id : String
  attributes : ArtistAttributes
deriving DecidableEq

/-- Go `models.Album`: identifier and title (fields used by the builder). -/
structure Album where
  id : String
  title : String
deriving DecidableEq

/-- Go `models.Track`: identifier, title, duration and optional artist list. -/
structure Track where
  id : String
  title : String
  duration : Nat
  artists : List Artist
deriving DecidableEq

/-- Go `models.Playlist`: both raw identifier fields and both raw title fields. -/
structure Playlist where
  id : String
  uuid : String
  title : String
  name : String
  description : String
deriving DecidableEq

/-- Go `Playlist.GetID`: prefers the JSON:API `id` over the legacy `uuid`. -/
def Playlist.GetID (p : Playlist) : String :=
  if p.id ≠ "" then p.id else p.uuid

/-- Go `Playlist.GetTitle`: prefers `title` over `name`. -/
def Playlist.GetTitle (p : Playlist) : String :=
  if p.title ≠ "" then p.title else p.name

deriving instance DecidableEq for Except

/-- Model of Go `strings.ToLower`: lowercase every character. -/
def goToLower (s : String) : String :=
  String.mk (s.data.map Char.toLower)

/-- Lexicographic strict order on character lists, the model of a negative
Go `strings.Compare` result. -/
def charListLt : List Char → List Char → Bool
  | [], [] => false
  | [], _ :: _ => true
  | _ :: _, [] => false
  | a :: as, b :: bs =>
    if a < b then true else if b < a then false else charListLt as bs

/-- Model of Go `strings.Compare(s, t) < 0`. -/
def strLtB (s t : String) : Bool :=
  charListLt s.data t.data

/-- Go `config.FiltersConfig`: blacklist and whitelist of identifier strings. -/
structure FiltersConfig where
  blacklist : List String
  whitelist : List String
deriving DecidableEq

/-- Go `builder.filterByWhitelist`: build the set of lowercased whitelist
entries, keep the artists whose lowercased identifier is in the set. -/
def filterByWhitelist (whitelist : List String) (artists : List ArtistID) :
    List ArtistID :=
  let wlSet := whitelist.map (fun n => goToLower n)
  artists.filter (fun a => wlSet.contains (goToLower a.id))

/-- Go `builder.filterByBlacklist`: build the set of lowercased blacklist
entries, keep the artists whose lowercased identifier is not in the set. -/
def filterByBlacklist (blacklist : List String) (artists : List ArtistID) :
    List ArtistID :=
  let blSet := blacklist.map (fun n => goToLower n)
  artists.filter (fun a => !(blSet.contains (goToLower a.id)))

/-- Go `builder.FilterArtists`: whitelist wins when non-empty, otherwise the
blacklist applies when non-empty, otherwise the input passes through. -/
def FilterArtists (cfg : FiltersConfig) (artists : List ArtistID) :
    List ArtistID :=
  if cfg.whitelist.length > 0 then filterByWhitelist cfg.whitelist artists
  else if cfg.blacklist.length > 0 then filterByBlacklist cfg.blacklist artists
  else artists

/-- Go runtime panics that the embedded code can raise. -/
inductive GoPanic where
  | nilPointerDereference
  | intnNonPositive
deriving DecidableEq

/-- Go `builder.selectRandomItems`, one draw per slot: `source[rand.Intn (len
source)]`.  `rand.Intn 0` panics, modelled as `none`. -/
def selectRandomItemsAux {α : Type} (r : Nat → Nat) (source : List α) :
    Nat → Nat → Option (List α)
  | _, 0 => some []
  | pos, count + 1 =>
    if h : source.length = 0 then none
    else
      match selectRandomItemsAux r source (pos + 1) count with
      | none => none
      | some rest =>
        some (source.get ⟨r pos % source.length,
          Nat.mod_lt _ (Nat.pos_of_ne_zero h)⟩ :: rest)

/-- Go `builder.selectRandomItems`: `count` independent uniform draws with
replacement from `source`, consuming the random stream from position 0. -/
def selectRandomItems {α : Type} (r : Nat → Nat) (count : Nat)
    (source : List α) : Option (List α) :=
  selectRandomItemsAux r source 0 count

/-- Oracle for the remote API: each call is a pure function of its
arguments; `none` (or `false`) models the call returning an error. -/
structure ClientOracle where
  getArtist : String → Option Artist
  getArtistAlbums : String → Nat → Option (List Album)
  getAlbumTracks : String → Option (List Track)
  getFavoriteArtists : Option (List ArtistID)
  getUserPlaylists : Option (List Playlist)
  createPlaylist : String → String → Option Playlist
  deletePlaylist : String → Bool
  setPlaylistTracks : String → List String → Bool

/-- Insertion step for the in-place `slices.SortFunc` on `[]ArtistID`
compared by `strings.Compare` on the identifier. -/
def insertById (a : ArtistID) : List ArtistID → List ArtistID
  | [] => [a]
  | b :: l => if strLtB b.id a.id then b :: insertById a l else a :: b :: l

/-- Go `slices.SortFunc(artists, compare by ID)`: ascending sort by identifier
(the element type carries only the identifier, so any sort agrees). -/
def sortArtists : List ArtistID → List ArtistID
  | [] => []
  | a :: l => insertById a (sortArtists l)

/-- A stand-in `Track` value (never observed: only read at in-bounds
indices). -/
def defaultTrack : Track := { id := "", title := "", duration := 0, artists := [] }

/-- A stand-in `Album` value (never observed: only read at in-bounds
indices). -/
def defaultAlbum : Album := { id := "", title := "" }

/-- One iteration of the `builder.CollectTracks` loop on entry `aid`, with
the random-stream position `pos`, the `lastArtist` identifier and the
cached `lastAlbums` list as the loop-carried state.  Returns the slice cell
for this entry (`none` where the Go code leaves the `*Track` nil) and the
updated state.  A failing `GetArtist` call panics: the Go warning printf
dereferences the nil artist pointer.  `rand.Intn 0` on an empty cached
album list would also panic. -/
def collectStep (c : ClientOracle) (r : Nat → Nat) (aid : ArtistID)
    (pos : Nat) (lastArtist : String) (lastAlbums : List Album) :
    Except GoPanic (Option Track × Nat × String × List Album) :=
  match c.getArtist aid.id with
  | none => Except.error GoPanic.nilPointerDereference
  | some artist =>
    let fetched : Option (String × List Album) :=
      if lastArtist = "" ∨ lastArtist ≠ artist.id then
        match c.getArtistAlbums artist.id 100 with
        | none => none
        | some albums =>
          if albums.length = 0 then none else some (artist.id, albums)
      else some (lastArtist, lastAlbums)
    match fetched with
    | none => Except.ok (none, pos, lastArtist, lastAlbums)
    | some (la, albums) =>
      if albums.length = 0 then Except.error GoPanic.intnNonPositive
      else
        let randomAlbum := albums.getD (r pos % albums.length) defaultAlbum
        match c.getAlbumTracks randomAlbum.id with
        | none => Except.ok (none, pos + 1, la, albums)
        | some tracks =>
          if tracks.length = 0 then Except.ok (none, pos + 1, la, albums)
          else
            let t := tracks.getD (r (pos + 1) % tracks.length) defaultTrack
            Except.ok (some t, pos + 2, la, albums)

/-- The loop of `builder.CollectTracks`, walking the (already sorted)
artist list: one `collectStep` per entry, a panic aborting the whole
walk. -/
def collectLoop (c : ClientOracle) (r : Nat → Nat) :
    List ArtistID → Nat → String → List Album →
    Except GoPanic (List (Option Track))
  | [], _, _, _ => Except.ok []
  | aid :: rest, pos, lastArtist, lastAlbums =>
    match collectStep c r aid pos lastArtist lastAlbums with
    | Except.error p => Except.error p
    | Except.ok (slot, pos2, la2, albums2) =>
      (collectLoop c r rest pos2 la2 albums2).map (fun l => slot :: l)

/-- Go `builder.CollectTracks`: sorts the caller's slice in place (second
component of the result: the slice the caller sees afterwards), then walks
the sorted list collecting one random track per entry. -/
def CollectTracks (c : ClientOracle) (r : Nat → Nat) (pos : Nat)
    (artists : List ArtistID) :
    Except GoPanic (List (Option Track)) × List ArtistID :=
  (collectLoop c r (sortArtists artists) pos "" [], sortArtists artists)

/-- Remote mutation calls issued by the playlist upsert, in order. -/
inductive Event where
  | deletePlaylist (id : String)
  | createPlaylist (title description : String)
  | setPlaylistTracks (playlistId : String) (trackIds : List String)
deriving DecidableEq

/-- The delete loop of `CreateOrUpdatePlaylist`: delete each match in order,
aborting at the first failing call (the failing call is still issued). -/
def deleteLoop (c : ClientOracle) :
    List Playlist → Except String Unit × List Event
  | [] => (Except.ok (), [])
  | p :: ps =>
    if c.deletePlaylist p.id then
      let res := deleteLoop c ps
      (res.1, Event.deletePlaylist p.id :: res.2)
    else
      (Except.error ("failed to delete playlist " ++ p.id),
        [Event.deletePlaylist p.id])

/-- The batch loop of `CreateOrUpdatePlaylist`: attach each batch in order,
aborting at the first failing call (the failing call is still issued). -/
def setTracksLoop (c : ClientOracle) (pid : String) :
    List (List String) → Except String Unit × List Event
  | [] => (Except.ok (), [])
  | b :: bs =>
    if c.setPlaylistTracks pid b then
      let res := setTracksLoop c pid bs
      (res.1, Event.setPlaylistTracks pid b :: res.2)
    else
      (Except.error "failed to add tracks to playlist",
        [Event.setPlaylistTracks pid b])

/-- The batching loop `for i := 0; i < len; i += batchSize` with the fixed
batch size 20, structurally recursive on a fuel bounded by the length. -/
def chunksAux : Nat → List String → List (List String)
  | _, [] => []
  | 0, _ => []
  | fuel + 1, x :: xs => (x :: xs).take 20 :: chunksAux fuel ((x :: xs).drop 20)

/-- The list of track-ID batches passed to `SetPlaylistTracks`, in order. -/
def chunks20 (l : List String) : List (List String) :=
  chunksAux l.length l

/-- Go `api.FindAllPlaylistsByName`: every user playlist whose reconciled title
equals the requested name exactly. -/
def FindAllPlaylistsByName (pls : List Playlist) (name : String) :
    List Playlist :=
  pls.filter (fun p => p.GetTitle == name)

/-- Go `api.CreateOrUpdatePlaylist`: find matches, delete every match, create
the new playlist, then attach the track IDs in batches of 20; result plus
the ordered trace of mutation calls issued. -/
def CreateOrUpdatePlaylist (c : ClientOracle) (name description : String)
    (trackIDs : List String) : Except String Playlist × List Event :=
  match c.getUserPlaylists with
  | none => (Except.error "failed to search for existing playlists", [])
  | some pls =>
    let matching := FindAllPlaylistsByName pls name
    let del := deleteLoop c matching
    match del.1 with
    | Except.error e => (Except.error e, del.2)
    | Except.ok _ =>
      match c.createPlaylist name description with
      | none =>
        (Except.error "failed to create playlist",
          del.2 ++ [Event.createPlaylist name description])
      | some pl =>
        let st := setTracksLoop c pl.GetID (chunks20 trackIDs)
        match st.1 with
        | Except.error e =>
          (Except.error e,
            del.2 ++ [Event.createPlaylist name description] ++ st.2)
        | Except.ok _ =>
          (Except.ok pl,
            del.2 ++ [Event.createPlaylist name description] ++ st.2)

/-- Outcome of a `BuildPlaylist` run. -/
inductive Outcome where
  | ok
  | errorMsg (msg : String)
  | panicked (p : GoPanic)
deriving DecidableEq

/-- First listed artist name of a track for the dry-run preview ("" when
the track carries no artist list). -/
def firstArtistName (t : Track) : String :=
  match t.artists with
  | [] => ""
  | a :: _ => a.attributes.name

/-- Go `builder.BuildPlaylist`: fetch favorites, filter, abort when the
filtered set is empty, sample `count` artists, collect tracks, check the
pre-compaction slice for emptiness, compact, then either print the dry-run
preview (third component: at most the first 10 final tracks as
artist-name/title pairs) or upsert the playlist.  Second component: the
ordered trace of remote mutation calls. -/
def BuildPlaylist (c : ClientOracle) (r : Nat → Nat) (count : Nat)
    (filters : FiltersConfig) (playlistName : String) (dryRun : Bool) :
    Outcome × List Event × List (String × String) :=
  match c.getFavoriteArtists with
  | none => (Outcome.errorMsg "failed to fetch favorite artists", [], [])
  | some artists =>
    let filteredArtists := FilterArtists filters artists
    if filteredArtists.length = 0 then
      (Outcome.errorMsg "no artists remaining after filtering", [], [])
    else
      match selectRandomItems r count filteredArtists with
      | none => (Outcome.panicked GoPanic.intnNonPositive, [], [])
      | some selectedArtists =>
        match (CollectTracks c r count selectedArtists).1 with
        | Except.error p => (Outcome.panicked p, [], [])
        | Except.ok tracks =>
          if tracks.length = 0 then
            (Outcome.errorMsg "no tracks collected from artists", [], [])
          else
            let finalTracks := tracks.filterMap id
            if dryRun then
              (Outcome.ok, [],
                (finalTracks.take 10).map
                  (fun t => (firstArtistName t, t.title)))
            else
              let trackIDs := finalTracks.map (fun t => t.id)
              let res := CreateOrUpdatePlaylist c playlistName
                "Generated by tidal-playlist" trackIDs
              match res.1 with
              | Except.ok _ => (Outcome.ok, res.2, [])
              | Except.error e => (Outcome.errorMsg e, res.2, [])

/-- Spec-side predicate: the identifier of `a` matches some entry of
`entries` case-insensitively. -/
def matchesCaseInsensitive (entries : List String) (a : ArtistID) : Prop :=
  ∃ n ∈ entries, goToLower n = goToLower a.id

instance (entries : List String) (a : ArtistID) :
    Decidable (matchesCaseInsensitive entries a) := by
  unfold matchesCaseInsensitive; infer_instance

/-- Spec-side predicate: `t` is a track of artist `aid` as reachable through
the client — artist detail of `aid`, some album of that detail, some track
of that album. -/
def trackFromArtist (c : ClientOracle) (aid : ArtistID) (t : Track) : Prop :=
  ∃ artist, c.getArtist aid.id = some artist ∧
    ∃ albums, c.getArtistAlbums artist.id 100 = some albums ∧
      ∃ alb ∈ albums, ∃ tracks, c.getAlbumTracks alb.id = some tracks ∧
        t ∈ tracks

/-- Invariant of the album cache carried by the collect loop: either no
artist has been cached yet, or the cache is the non-empty album list the
client reports for the cached identifier. -/
def albumsInv (c : ClientOracle) (la : String) (lAlbs : List Album) : Prop :=
  la = "" ∨ (c.getArtistAlbums la 100 = some lAlbs ∧ lAlbs ≠ [])

/-- The track-ID batches of the track-attachment calls in a trace, in
order. -/
def setBatches (evts : List Event) : List (List String) :=
  evts.filterMap (fun e =>
    match e with
    | Event.setPlaylistTracks _ ids => some ids
    | _ => none)

/-- A deterministic all-success oracle used to evaluate the embedding at
concrete inputs: each artist has one album, each album one track. -/
def okOracle : ClientOracle where
  getArtist s := some { id := s, attributes := { name := "N" ++ s } }
  getArtistAlbums s _ := some [{ id := "alb-" ++ s, title := "A" ++ s }]
  getAlbumTracks aid :=
    some [{ id := "trk-" ++ aid, title := "T" ++ aid, duration := 100,
            artists := [] }]
  getFavoriteArtists := some [⟨"b"⟩, ⟨"a"⟩]
  getUserPlaylists :=
    some [{ id := "p1", uuid := "", title := "X", name := "", description := "" },
          { id := "p2", uuid := "", title := "Y", name := "", description := "" },
          { id := "p3", uuid := "u3", title := "", name := "X", description := "" }]
  createPlaylist n d :=
    some { id := "newpl", uuid := "", title := n, name := "", description := d }
  deletePlaylist _ := true
  setPlaylistTracks _ _ := true

/-- An oracle whose `GetArtist` always fails, used to evaluate the
nil-pointer panic in the collect loop. -/
def artistFailOracle : ClientOracle :=
  { okOracle with getArtist := fun _ => none }

/-- An oracle whose album fetch always fails, used to evaluate the run in
which every collected slot stays empty. -/
def albumsFailOracle : ClientOracle :=
  { okOracle with
    getArtistAlbums := fun _ _ => none
    getFavoriteArtists := some [⟨"a"⟩]
    getUserPlaylists := some [] }

theorem contains_goToLower_iff (entries : List String) (s : String) :
    ((entries.map (fun n => goToLower n)).contains s = true) ↔
      ∃ n ∈ entries, goToLower n = s := by
  simp [List.contains, List.elem_iff, List.mem_map, eq_comm]

theorem filterByWhitelist_eq (wl : List String) (artists : List ArtistID) :
    filterByWhitelist wl artists =
      artists.filter (fun a => decide (matchesCaseInsensitive wl a)) := by
  unfold filterByWhitelist
  apply List.filter_congr
  intro a _
  simp only [matchesCaseInsensitive]
  by_cases h : ∃ n ∈ wl, goToLower n = goToLower a.id
  · simp [h, (contains_goToLower_iff wl (goToLower a.id)).mpr h]
  · simp only [h, decide_False]
    rw [← Bool.not_eq_true]
    intro hc
    exact h ((contains_goToLower_iff wl (goToLower a.id)).mp hc)

theorem filterByBlacklist_eq (bl : List String) (artists : List ArtistID) :
    filterByBlacklist bl artists =
      artists.filter (fun a => decide (¬ matchesCaseInsensitive bl a)) := by
  unfold filterByBlacklist
  apply List.filter_congr
  intro a _
  simp only [matchesCaseInsensitive]
  by_cases h : ∃ n ∈ bl, goToLower n = goToLower a.id
  · simp [h, (contains_goToLower_iff bl (goToLower a.id)).mpr h]
  · simp only [h, not_false_eq_true, decide_True, Bool.not_eq_true']
    rw [← Bool.not_eq_true]
    intro hc
    exact h ((contains_goToLower_iff bl (goToLower a.id)).mp hc)

/-- C1: with a non-empty whitelist, `FilterArtists` returns exactly the
input artists whose identifier matches some whitelist entry
case-insensitively, in input order, and the blacklist is ignored; otherwise
a non-empty blacklist removes exactly the case-insensitive matches; with
both lists empty the input passes through unchanged. -/
theorem filterArtists_spec (wl bl : List String) (artists : List ArtistID) :
    (wl ≠ [] →
      FilterArtists ⟨bl, wl⟩ artists =
        artists.filter (fun a => decide (matchesCaseInsensitive wl a)) ∧
      ∀ bl2 : List String,
        FilterArtists ⟨bl2, wl⟩ artists = FilterArtists ⟨bl, wl⟩ artists) ∧
    (wl = [] → bl ≠ [] →
      FilterArtists ⟨bl, wl⟩ artists =
        artists.filter (fun a => decide (¬ matchesCaseInsensitive bl a))) ∧
    (wl = [] → bl = [] → FilterArtists ⟨bl, wl⟩ artists = artists) := by
  refine ⟨fun hwl => ⟨?_, fun bl2 => ?_⟩, fun hwl hbl => ?_, fun hwl hbl => ?_⟩
  · have hpos : 0 < wl.length := List.length_pos.mpr hwl
    simp [FilterArtists, hpos, filterByWhitelist_eq]
  · have hpos : 0 < wl.length := List.length_pos.mpr hwl
    simp [FilterArtists, hpos]
  · subst hwl
    have hpos : 0 < bl.length := List.length_pos.mpr hbl
    simp [FilterArtists, hpos, filterByBlacklist_eq]
  · subst hwl; subst hbl
    simp [FilterArtists]

/-- Witness for C1 at concrete whitelist, blacklist and artist lists. -/
theorem filterArtists_spec_witness :
    FilterArtists ⟨["bar"], ["Foo"]⟩ [⟨"foo"⟩, ⟨"baz"⟩] =
      [⟨"foo"⟩, ⟨"baz"⟩].filter
        (fun a => decide (matchesCaseInsensitive ["Foo"] a)) ∧
    ([⟨"foo"⟩, ⟨"baz"⟩] : List ArtistID).filter
        (fun a => decide (matchesCaseInsensitive ["Foo"] a)) = [⟨"foo"⟩] ∧
    FilterArtists ⟨[], []⟩ [⟨"foo"⟩] = [⟨"foo"⟩] :=
  ⟨((filterArtists_spec ["Foo"] ["bar"] [⟨"foo"⟩, ⟨"baz"⟩]).1
      (by decide)).1,
   by decide,
   (filterArtists_spec [] [] [⟨"foo"⟩]).2.2 rfl rfl⟩

theorem selectRandomItemsAux_ok {α : Type} (r : Nat → Nat) (source : List α)
    (h : source ≠ []) :
    ∀ (count pos : Nat), ∃ res,
      selectRandomItemsAux r source pos count = some res ∧
      res.length = count ∧ ∀ x ∈ res, x ∈ source := by
  intro count
  induction count with
  | zero => exact fun pos => ⟨[], rfl, rfl, by simp⟩
  | succ k ih =>
    intro pos
    obtain ⟨res, hres, hlen, hmem⟩ := ih (pos + 1)
    have hne : ¬ source.length = 0 := fun h0 => h (List.length_eq_zero.mp h0)
    refine ⟨source.get ⟨r pos % source.length,
      Nat.mod_lt _ (Nat.pos_of_ne_zero hne)⟩ :: res, ?_, by simp [hlen], ?_⟩
    · simp only [selectRandomItemsAux, dif_neg hne, hres]
    · intro x hx
      rcases List.mem_cons.mp hx with hx | hx
      · exact hx ▸ List.get_mem source _ _
      · exact hmem x hx

theorem selectRandomItemsAux_const_zero {α : Type} (source : List α)
    (h : ¬ source.length = 0) :
    ∀ (count pos : Nat),
      selectRandomItemsAux (fun _ => 0) source pos count =
        some (List.replicate count
          (source.get ⟨0, Nat.pos_of_ne_zero h⟩)) := by
  intro count
  induction count with
  | zero => intro pos; simp [selectRandomItemsAux]
  | succ k ih =>
    intro pos
    simp only [selectRandomItemsAux, dif_neg h, ih (pos + 1),
      List.replicate, Nat.zero_mod]

/-- C6: for every count and non-empty source, `selectRandomItems` returns
exactly `count` elements, each drawn from the source; draws are with
replacement, and for a count above the source size some random stream
yields duplicates. -/
theorem selectRandomItems_spec {α : Type} (r : Nat → Nat) (count : Nat)
    (source : List α) (h : source ≠ []) :
    (∃ res, selectRandomItems r count source = some res ∧
      res.length = count ∧ ∀ x ∈ res, x ∈ source) ∧
    (count > source.length →
      ∃ r2 res, selectRandomItems r2 count source = some res ∧
        ¬ res.Nodup) := by
  constructor
  · exact selectRandomItemsAux_ok r source h count 0
  · intro hgt
    have hne : ¬ source.length = 0 := fun h0 => h (List.length_eq_zero.mp h0)
    refine ⟨fun _ => 0, _,
      selectRandomItemsAux_const_zero source hne count 0, ?_⟩
    rw [List.nodup_replicate]
    have := Nat.pos_of_ne_zero hne
    omega

/-- Witness for C6 at a two-element source with three draws. -/
theorem selectRandomItems_spec_witness :
    selectRandomItems (fun k => k) 3 ["a", "b"] = some ["a", "b", "a"] ∧
    (∃ res, selectRandomItems (fun k => k) 3 ["a", "b"] = some res ∧
      res.length = 3 ∧ ∀ x ∈ res, x ∈ ["a", "b"]) ∧
    (3 > (["a", "b"] : List String).length →
      ∃ r2 res, selectRandomItems r2 3 ["a", "b"] = some res ∧
        ¬ res.Nodup) :=
  ⟨by decide,
   (selectRandomItems_spec (fun k => k) 3 ["a", "b"] (by decide)).1,
   (selectRandomItems_spec (fun k => k) 3 ["a", "b"] (by decide)).2⟩

end TidalPlaylist

namespace TidalPlaylist

theorem getD_mem_of_lt {α : Type} :
    ∀ (l : List α) (i : Nat) (d : α), i < l.length → l.getD i d ∈ l
  | a :: l, 0, d, _ => by simp
  | a :: l, i + 1, d, h => by
    simp only [List.getD_cons_succ]
    exact List.mem_cons_of_mem _ (getD_mem_of_lt l i d (by simpa using h))

theorem insertById_length (a : ArtistID) (l : List ArtistID) :
    (insertById a l).length = l.length + 1 := by
  induction l with
  | nil => rfl
  | cons b l ih =>
    simp only [insertById]
    split
    · simp [ih]
    · simp

theorem sortArtists_length (l : List ArtistID) :
    (sortArtists l).length = l.length := by
  induction l with
  | nil => rfl
  | cons a l ih => simp [sortArtists, insertById_length, ih]

theorem collectStep_spec (c : ClientOracle) (r : Nat → Nat) (aid : ArtistID)
    (pos : Nat) (la : String) (lAlbs : List Album)
    (hinv : albumsInv c la lAlbs)
    (slot : Option Track) (pos2 : Nat) (la2 : String) (albums2 : List Album)
    (h : collectStep c r aid pos la lAlbs =
      Except.ok (slot, pos2, la2, albums2)) :
    albumsInv c la2 albums2 ∧
    (∀ t, slot = some t → trackFromArtist c aid t) := by
  cases hga : c.getArtist aid.id with
  | none => simp [collectStep, hga] at h
  | some artist =>
    by_cases hcond : la = "" ∨ la ≠ artist.id
    · cases hgal : c.getArtistAlbums artist.id 100 with
      | none =>
        simp only [collectStep, hga, hgal, if_pos hcond, Except.ok.injEq,
          Prod.mk.injEq] at h
        obtain ⟨rfl, rfl, rfl, rfl⟩ := h
        exact ⟨hinv, by simp⟩
      | some albums =>
        by_cases hlen : albums.length = 0
        · simp only [collectStep, hga, hgal, if_pos hcond, if_pos hlen,
            Except.ok.injEq, Prod.mk.injEq] at h
          obtain ⟨rfl, rfl, rfl, rfl⟩ := h
          exact ⟨hinv, by simp⟩
        · have hne2 : albums ≠ [] := fun h0 => hlen (by simp [h0])
          cases hgat : c.getAlbumTracks
              (albums.getD (r pos % albums.length) defaultAlbum).id with
          | none =>
            simp only [collectStep, hga, hgal, if_pos hcond, if_neg hlen,
              hgat, Except.ok.injEq, Prod.mk.injEq] at h
            obtain ⟨rfl, rfl, rfl, rfl⟩ := h
            exact ⟨Or.inr ⟨hgal, hne2⟩, by simp⟩
          | some tracks =>
            by_cases hlt : tracks.length = 0
            · simp only [collectStep, hga, hgal, if_pos hcond, if_neg hlen,
                hgat, if_pos hlt, Except.ok.injEq, Prod.mk.injEq] at h
              obtain ⟨rfl, rfl, rfl, rfl⟩ := h
              exact ⟨Or.inr ⟨hgal, hne2⟩, by simp⟩
            · simp only [collectStep, hga, hgal, if_pos hcond, if_neg hlen,
                hgat, if_neg hlt, Except.ok.injEq, Prod.mk.injEq] at h
              obtain ⟨rfl, rfl, rfl, rfl⟩ := h
              refine ⟨Or.inr ⟨hgal, hne2⟩, ?_⟩
              intro t ht
              obtain ⟨rfl⟩ := ht
              exact ⟨artist, hga, albums, hgal,
                albums.getD (r pos % albums.length) defaultAlbum,
                getD_mem_of_lt _ _ _ (Nat.mod_lt _ (Nat.pos_of_ne_zero hlen)),
                tracks, hgat,
                getD_mem_of_lt _ _ _ (Nat.mod_lt _ (Nat.pos_of_ne_zero hlt))⟩
    · have hcond2 := hcond
      push_neg at hcond2
      obtain ⟨hne, heq⟩ := hcond2
      rcases hinv with hinv | ⟨hal, halne⟩
      · exact absurd hinv hne
      · have hlen : ¬ lAlbs.length = 0 := fun h0 =>
          halne (List.length_eq_zero.mp h0)
        cases hgat : c.getAlbumTracks
            (lAlbs.getD (r pos % lAlbs.length) defaultAlbum).id with
        | none =>
          simp only [collectStep, hga, if_neg hcond, if_neg hlen, hgat,
            Except.ok.injEq, Prod.mk.injEq] at h
          obtain ⟨rfl, rfl, rfl, rfl⟩ := h
          exact ⟨Or.inr ⟨hal, halne⟩, by simp⟩
        | some tracks =>
          by_cases hlt : tracks.length = 0
          · simp only [collectStep, hga, if_neg hcond, if_neg hlen, hgat,
              if_pos hlt, Except.ok.injEq, Prod.mk.injEq] at h
            obtain ⟨rfl, rfl, rfl, rfl⟩ := h
            exact ⟨Or.inr ⟨hal, halne⟩, by simp⟩
          · simp only [collectStep, hga, if_neg hcond, if_neg hlen, hgat,
              if_neg hlt, Except.ok.injEq, Prod.mk.injEq] at h
            obtain ⟨rfl, rfl, rfl, rfl⟩ := h
            refine ⟨Or.inr ⟨hal, halne⟩, ?_⟩
            intro t ht
            obtain ⟨rfl⟩ := ht
            refine ⟨artist, hga, lAlbs, ?_, 
              lAlbs.getD (r pos % lAlbs.length) defaultAlbum,
              getD_mem_of_lt _ _ _ (Nat.mod_lt _ (Nat.pos_of_ne_zero hlen)),
              tracks, hgat,
              getD_mem_of_lt _ _ _ (Nat.mod_lt _ (Nat.pos_of_ne_zero hlt))⟩
            rw [← heq]
            exact hal

end TidalPlaylist

namespace TidalPlaylist

theorem collectLoop_length (c : ClientOracle) (r : Nat → Nat) :
    ∀ (as : List ArtistID) (pos : Nat) (la : String) (lAlbs : List Album)
      (l : List (Option Track)),
      collectLoop c r as pos la lAlbs = Except.ok l →
      l.length = as.length := by
  intro as
  induction as with
  | nil =>
    intro pos la lAlbs l h
    simp only [collectLoop, Except.ok.injEq] at h
    subst h
    rfl
  | cons aid rest ih =>
    intro pos la lAlbs l h
    cases hstep : collectStep c r aid pos la lAlbs with
    | error q => simp [collectLoop, hstep] at h
    | ok out =>
      obtain ⟨slot, pos2, la2, albums2⟩ := out
      cases hrec : collectLoop c r rest pos2 la2 albums2 with
      | error q => simp [collectLoop, hstep, hrec, Except.map] at h
      | ok l2 =>
        simp only [collectLoop, hstep, hrec, Except.map, Except.ok.injEq] at h
        subst h
        simp [ih pos2 la2 albums2 l2 hrec]

theorem collectLoop_zip (c : ClientOracle) (r : Nat → Nat) :
    ∀ (as : List ArtistID) (pos : Nat) (la : String) (lAlbs : List Album)
      (l : List (Option Track)),
      albumsInv c la lAlbs →
      collectLoop c r as pos la lAlbs = Except.ok l →
      ∀ p ∈ l.zip as, ∀ t, p.1 = some t → trackFromArtist c p.2 t := by
  intro as
  induction as with
  | nil =>
    intro pos la lAlbs l hinv h p hp
    simp only [collectLoop, Except.ok.injEq] at h
    subst h
    simp at hp
  | cons aid rest ih =>
    intro pos la lAlbs l hinv h p hp t hpt
    cases hstep : collectStep c r aid pos la lAlbs with
    | error q => simp [collectLoop, hstep] at h
    | ok out =>
      obtain ⟨slot, pos2, la2, albums2⟩ := out
      cases hrec : collectLoop c r rest pos2 la2 albums2 with
      | error q => simp [collectLoop, hstep, hrec, Except.map] at h
      | ok l2 =>
        simp only [collectLoop, hstep, hrec, Except.map, Except.ok.injEq] at h
        subst h
        obtain ⟨hinv2, hslot⟩ :=
          collectStep_spec c r aid pos la lAlbs hinv slot pos2 la2 albums2 hstep
        rw [List.zip_cons_cons] at hp
        rcases List.mem_cons.mp hp with hp | hp
        · subst hp
          exact hslot t hpt
        · exact ih pos2 la2 albums2 l2 hinv2 hrec p hp t hpt

end TidalPlaylist

namespace TidalPlaylist

/-- C5: when `CollectTracks` returns a slice, its length equals the number
of sampled artists, and the compacted (nil-free) list is at most that
long. -/
theorem collectTracks_length_spec (c : ClientOracle) (r : Nat → Nat)
    (pos : Nat) (artists : List ArtistID) (l : List (Option Track))
    (h : (CollectTracks c r pos artists).1 = Except.ok l) :
    l.length = artists.length ∧
    (l.filterMap id).length ≤ artists.length := by
  have hl : l.length = artists.length := by
    rw [collectLoop_length c r (sortArtists artists) pos "" [] l h,
      sortArtists_length]
  exact ⟨hl, le_trans (List.length_filterMap_le id l) (le_of_eq hl)⟩

/-- Witness for C5 at the all-success oracle and two sampled artists. -/
theorem collectTracks_length_spec_witness :
    (([some { id := "trk-alb-a", title := "Talb-a", duration := 100,
              artists := [] },
       some { id := "trk-alb-b", title := "Talb-b", duration := 100,
              artists := [] }] : List (Option Track)).length =
        ([⟨"b"⟩, ⟨"a"⟩] : List ArtistID).length) ∧
    ((([some { id := "trk-alb-a", title := "Talb-a", duration := 100,
               artists := [] },
        some { id := "trk-alb-b", title := "Talb-b", duration := 100,
               artists := [] }] : List (Option Track)).filterMap id).length ≤
        ([⟨"b"⟩, ⟨"a"⟩] : List ArtistID).length) :=
  collectTracks_length_spec okOracle (fun _ => 0) 0 [⟨"b"⟩, ⟨"a"⟩] _
    (by decide)

/-- C2 as stated is violated by the code: a failing artist-detail fetch
does not substitute a stub and continue — the warning printf dereferences
the nil artist record and the whole run panics. -/
theorem collectTracks_getArtist_failure_panics :
    (CollectTracks artistFailOracle (fun _ => 0) 0 [⟨"x"⟩, ⟨"y"⟩]).1 =
      Except.error GoPanic.nilPointerDereference := by decide

/-- C4 counterexample: on the sampled list [b, a] with an all-success
client, slot 0 holds a track of artist a (not of b, the first artist as
originally drawn), and the caller-visible sampled list is changed by the
in-place sort. -/
theorem collectTracks_not_aligned_original :
    (CollectTracks okOracle (fun _ => 0) 0 [⟨"b"⟩, ⟨"a"⟩]).1 =
      Except.ok
        [some { id := "trk-alb-a", title := "Talb-a", duration := 100,
                artists := [] },
         some { id := "trk-alb-b", title := "Talb-b", duration := 100,
                artists := [] }] ∧
    (CollectTracks okOracle (fun _ => 0) 0 [⟨"b"⟩, ⟨"a"⟩]).2 ≠
      [⟨"b"⟩, ⟨"a"⟩] ∧
    ¬ trackFromArtist okOracle ⟨"b"⟩
        { id := "trk-alb-a", title := "Talb-a", duration := 100,
          artists := [] } := by
  refine ⟨by decide, by decide, ?_⟩
  rintro ⟨artist, ha, albums, hal, alb, halb, tracks, ht, hmem⟩
  have ha2 : artist = { id := "b", attributes := { name := "Nb" } } := by
    injection ha with h
    exact h.symm
  subst ha2
  have hal2 : albums = [{ id := "alb-b", title := "Ab" }] := by
    injection hal with h
    exact h.symm
  subst hal2
  have halb2 : alb = { id := "alb-b", title := "Ab" } := by
    simpa using halb
  subst halb2
  have ht2 :
      tracks =
        [{ id := "trk-alb-b", title := "Talb-b", duration := 100, artists := [] }] := by
    injection ht with h
    exact h.symm
  subst ht2
  exact absurd hmem (by decide)

end TidalPlaylist

namespace TidalPlaylist

/-- C4 amended: the slice returned by `CollectTracks` is aligned with the
sorted order of the sampled artists — the sampling slice itself is sorted
in place by identifier (that is what the caller sees afterwards), and a
filled slot holds a track of the artist at the same position of that
sorted list. -/
theorem collectTracks_aligned_sorted (c : ClientOracle) (r : Nat → Nat)
    (pos : Nat) (artists : List ArtistID) (l : List (Option Track))
    (h : (CollectTracks c r pos artists).1 = Except.ok l) :
    (CollectTracks c r pos artists).2 = sortArtists artists ∧
    l.length = (sortArtists artists).length ∧
    ∀ p ∈ l.zip (sortArtists artists), ∀ t, p.1 = some t →
      trackFromArtist c p.2 t := by
  exact ⟨rfl, collectLoop_length c r (sortArtists artists) pos "" [] l h,
    collectLoop_zip c r (sortArtists artists) pos "" [] l (Or.inl rfl) h⟩

/-- Witness for the amended C4 at the all-success oracle. -/
theorem collectTracks_aligned_sorted_witness :
    (CollectTracks okOracle (fun _ => 0) 0 [⟨"b"⟩, ⟨"a"⟩]).2 =
      sortArtists [⟨"b"⟩, ⟨"a"⟩] ∧
    (([some { id := "trk-alb-a", title := "Talb-a", duration := 100,
              artists := [] },
       some { id := "trk-alb-b", title := "Talb-b", duration := 100,
              artists := [] }] : List (Option Track)).length =
      (sortArtists [⟨"b"⟩, ⟨"a"⟩]).length) ∧
    ∀ p ∈ ([some { id := "trk-alb-a", title := "Talb-a", duration := 100,
                   artists := [] },
            some { id := "trk-alb-b", title := "Talb-b", duration := 100,
                   artists := [] }] : List (Option Track)).zip
        (sortArtists [⟨"b"⟩, ⟨"a"⟩]),
      ∀ t, p.1 = some t → trackFromArtist okOracle p.2 t :=
  collectTracks_aligned_sorted okOracle (fun _ => 0) 0 [⟨"b"⟩, ⟨"a"⟩] _
    (by decide)

end TidalPlaylist

namespace TidalPlaylist

theorem chunksAux_congr :
    ∀ (f1 f2 : Nat) (l : List String), l.length ≤ f1 → l.length ≤ f2 →
      chunksAux f1 l = chunksAux f2 l := by
  intro f1
  induction f1 with
  | zero =>
    intro f2 l h1 h2
    have : l = [] := List.length_eq_zero.mp (Nat.le_zero.mp h1)
    subst this
    cases f2 <;> rfl
  | succ k ih =>
    intro f2 l h1 h2
    cases l with
    | nil => cases f2 <;> rfl
    | cons x xs =>
      cases f2 with
      | zero => simp at h2
      | succ m =>
        simp only [chunksAux]
        congr 1
        apply ih
        · simp only [List.length_drop, List.length_cons] at h1 ⊢
          omega
        · simp only [List.length_drop, List.length_cons] at h2 ⊢
          omega

theorem chunks20_cons (l : List String) (h : l ≠ []) :
    chunks20 l = l.take 20 :: chunks20 (l.drop 20) := by
  cases l with
  | nil => exact absurd rfl h
  | cons x xs =>
    show chunksAux (x :: xs).length (x :: xs) = _
    simp only [List.length_cons, chunksAux]
    congr 1
    apply chunksAux_congr
    · simp [List.length_drop]
    · simp [List.length_drop]

theorem chunksAux_flatten :
    ∀ (f : Nat) (l : List String), l.length ≤ f →
      (chunksAux f l).flatten = l := by
  intro f
  induction f with
  | zero =>
    intro l h
    have : l = [] := List.length_eq_zero.mp (Nat.le_zero.mp h)
    subst this
    rfl
  | succ k ih =>
    intro l h
    cases l with
    | nil => rfl
    | cons x xs =>
      simp only [chunksAux, List.flatten_cons]
      rw [ih]
      · exact List.take_append_drop 20 (x :: xs)
      · simp only [List.length_drop, List.length_cons] at h ⊢
        omega

theorem chunks20_flatten (l : List String) : (chunks20 l).flatten = l :=
  chunksAux_flatten l.length l le_rfl

theorem chunksAux_sizes :
    ∀ (f : Nat) (l : List String), l.length ≤ f →
      ∀ b ∈ chunksAux f l, b.length ≤ 20 := by
  intro f
  induction f with
  | zero => intro l h b hb; cases l <;> simp [chunksAux] at hb
  | succ k ih =>
    intro l h b hb
    cases l with
    | nil => simp [chunksAux] at hb
    | cons x xs =>
      simp only [chunksAux] at hb
      rcases List.mem_cons.mp hb with hb | hb
      · subst hb
        exact List.length_take_le 20 (x :: xs)
      · refine ih _ ?_ b hb
        simp only [List.length_drop, List.length_cons] at h ⊢
        omega

theorem chunks20_sizes (l : List String) :
    ∀ b ∈ chunks20 l, b.length ≤ 20 :=
  chunksAux_sizes l.length l le_rfl

theorem chunks20_len45 (l : List String) (h : l.length = 45) :
    (chunks20 l).map List.length = [20, 20, 5] := by
  have h1 : l ≠ [] := by
    intro h0; rw [h0] at h; simp at h
  rw [chunks20_cons l h1]
  have hd1 : (l.drop 20).length = 25 := by simp [List.length_drop, h]
  have h2 : l.drop 20 ≠ [] := by
    intro h0; rw [h0] at hd1; simp at hd1
  rw [chunks20_cons _ h2]
  have hd2 : ((l.drop 20).drop 20).length = 5 := by
    simp [List.length_drop, h]
  have h3 : (l.drop 20).drop 20 ≠ [] := by
    intro h0; rw [h0] at hd2; simp at hd2
  rw [chunks20_cons _ h3]
  have hd3 : (((l.drop 20).drop 20).drop 20).length = 0 := by
    simp [List.length_drop, h]
  have h4 : ((l.drop 20).drop 20).drop 20 = [] :=
    List.length_eq_zero.mp hd3
  rw [h4]
  simp only [chunks20, chunksAux, List.map_cons, List.map_nil,
    List.length_take, h, hd1, hd2]
  norm_num

end TidalPlaylist

namespace TidalPlaylist

theorem deleteLoop_all_success (c : ClientOracle) :
    ∀ (ps : List Playlist), (∀ p ∈ ps, c.deletePlaylist p.id = true) →
      deleteLoop c ps =
        (Except.ok (), ps.map (fun p => Event.deletePlaylist p.id)) := by
  intro ps
  induction ps with
  | nil => intro _; rfl
  | cons p ps ih =>
    intro h
    have hp := h p (List.mem_cons_self p ps)
    simp only [deleteLoop, hp, if_true,
      ih (fun q hq => h q (List.mem_cons_of_mem p hq)), List.map_cons]

theorem deleteLoop_ok_events (c : ClientOracle) :
    ∀ (ps : List Playlist) (u : Unit), (deleteLoop c ps).1 = Except.ok u →
      (deleteLoop c ps).2 = ps.map (fun p => Event.deletePlaylist p.id) := by
  intro ps
  induction ps with
  | nil => intro u _; rfl
  | cons p ps ih =>
    intro u h
    by_cases hp : c.deletePlaylist p.id = true
    · simp only [deleteLoop, hp, if_true] at h ⊢
      rw [ih u h, List.map_cons]
    · simp only [deleteLoop, hp, if_false] at h
      cases h
  
theorem deleteLoop_events_deletes (c : ClientOracle) :
    ∀ (ps : List Playlist) (e : Event), e ∈ (deleteLoop c ps).2 →
      ∃ i, e = Event.deletePlaylist i := by
  intro ps
  induction ps with
  | nil => intro e he; simp [deleteLoop] at he
  | cons p ps ih =>
    intro e he
    by_cases hp : c.deletePlaylist p.id = true
    · simp only [deleteLoop, hp, if_true] at he
      rcases List.mem_cons.mp he with he | he
      · exact ⟨p.id, he⟩
      · exact ih e he
    · simp only [deleteLoop, hp, if_false] at he
      rcases List.mem_cons.mp he with he | he
      · exact ⟨p.id, he⟩
      · simp at he

theorem setTracksLoop_all_success (c : ClientOracle) (pid : String) :
    ∀ (bs : List (List String)),
      (∀ b ∈ bs, c.setPlaylistTracks pid b = true) →
      setTracksLoop c pid bs =
        (Except.ok (), bs.map (fun b => Event.setPlaylistTracks pid b)) := by
  intro bs
  induction bs with
  | nil => intro _; rfl
  | cons b bs ih =>
    intro h
    have hb := h b (List.mem_cons_self b bs)
    simp only [setTracksLoop, hb, if_true,
      ih (fun q hq => h q (List.mem_cons_of_mem b hq)), List.map_cons]

theorem setBatches_append (l1 l2 : List Event) :
    setBatches (l1 ++ l2) = setBatches l1 ++ setBatches l2 := by
  simp [setBatches, List.filterMap_append]

theorem setBatches_deletes (ms : List Playlist) :
    setBatches (ms.map (fun p => Event.deletePlaylist p.id)) = [] := by
  induction ms with
  | nil => rfl
  | cons p ms ih => simp only [List.map_cons, setBatches, List.filterMap_cons] at ih ⊢; exact ih

theorem setBatches_create (t d : String) :
    setBatches [Event.createPlaylist t d] = [] := rfl

theorem setBatches_sets (pid : String) :
    ∀ (bs : List (List String)),
      setBatches (bs.map (fun b => Event.setPlaylistTracks pid b)) = bs := by
  intro bs
  induction bs with
  | nil => rfl
  | cons b bs ih =>
    simp only [List.map_cons, setBatches, List.filterMap_cons] at ih ⊢
    rw [ih]

theorem createOrUpdatePlaylist_success_parts (c : ClientOracle)
    (name description : String) (trackIDs : List String)
    (pls : List Playlist) (pl : Playlist)
    (hg : c.getUserPlaylists = some pls)
    (hd : ∀ p ∈ FindAllPlaylistsByName pls name, c.deletePlaylist p.id = true)
    (hc : c.createPlaylist name description = some pl)
    (hs : ∀ b ∈ chunks20 trackIDs, c.setPlaylistTracks pl.GetID b = true) :
    (CreateOrUpdatePlaylist c name description trackIDs).1 = Except.ok pl ∧
    (CreateOrUpdatePlaylist c name description trackIDs).2 =
      (FindAllPlaylistsByName pls name).map
          (fun p => Event.deletePlaylist p.id)
        ++ [Event.createPlaylist name description]
        ++ (chunks20 trackIDs).map
          (fun b => Event.setPlaylistTracks pl.GetID b) := by
  have hdel := deleteLoop_all_success c (FindAllPlaylistsByName pls name) hd
  have hset := setTracksLoop_all_success c pl.GetID (chunks20 trackIDs) hs
  constructor
  · simp only [CreateOrUpdatePlaylist, hg, hdel, hc, hset]
  · simp only [CreateOrUpdatePlaylist, hg, hdel, hc, hset]

end TidalPlaylist

namespace TidalPlaylist

/-- C7: the upsert deletes exactly the existing user playlists whose
reconciled title equals the requested name, then creates exactly one new
playlist with that name, and attaches tracks only after the deletions and
the creation are complete — in every run, an attachment call in the trace
implies the trace starts with all matching deletions followed by the single
creation. -/
theorem createOrUpdatePlaylist_upsert (c : ClientOracle)
    (name description : String) (trackIDs : List String)
    (pls : List Playlist) (pl : Playlist)
    (hg : c.getUserPlaylists = some pls)
    (hd : ∀ p ∈ FindAllPlaylistsByName pls name, c.deletePlaylist p.id = true)
    (hc : c.createPlaylist name description = some pl)
    (hs : ∀ b ∈ chunks20 trackIDs, c.setPlaylistTracks pl.GetID b = true) :
    ((CreateOrUpdatePlaylist c name description trackIDs).2 =
      (FindAllPlaylistsByName pls name).map
          (fun p => Event.deletePlaylist p.id)
        ++ [Event.createPlaylist name description]
        ++ (chunks20 trackIDs).map
          (fun b => Event.setPlaylistTracks pl.GetID b)) ∧
    (∀ (c2 : ClientOracle) (pls2 : List Playlist) (pid : String)
        (ids : List String),
      c2.getUserPlaylists = some pls2 →
      Event.setPlaylistTracks pid ids ∈
        (CreateOrUpdatePlaylist c2 name description trackIDs).2 →
      ∃ rest,
        (CreateOrUpdatePlaylist c2 name description trackIDs).2 =
          (FindAllPlaylistsByName pls2 name).map
              (fun p => Event.deletePlaylist p.id)
            ++ Event.createPlaylist name description :: rest) := by
  constructor
  · exact (createOrUpdatePlaylist_success_parts c name description trackIDs
      pls pl hg hd hc hs).2
  · intro c2 pls2 pid ids hg2 hmem
    cases hdel : (deleteLoop c2 (FindAllPlaylistsByName pls2 name)).1 with
    | error e =>
      simp only [CreateOrUpdatePlaylist, hg2, hdel] at hmem
      obtain ⟨i, hi⟩ := deleteLoop_events_deletes c2 _ _ hmem
      cases hi
    | ok u =>
      have hdevts := deleteLoop_ok_events c2 _ u hdel
      cases hcr : c2.createPlaylist name description with
      | none =>
        simp only [CreateOrUpdatePlaylist, hg2, hdel, hcr] at hmem
        rcases List.mem_append.mp hmem with hmem | hmem
        · obtain ⟨i, hi⟩ := deleteLoop_events_deletes c2 _ _ hmem
          cases hi
        · simp at hmem
      | some pl2 =>
        cases hst : (setTracksLoop c2 pl2.GetID (chunks20 trackIDs)).1 with
        | error e =>
          refine ⟨(setTracksLoop c2 pl2.GetID (chunks20 trackIDs)).2, ?_⟩
          simp only [CreateOrUpdatePlaylist, hg2, hdel, hcr, hst, hdevts]
          simp
        | ok u2 =>
          refine ⟨(setTracksLoop c2 pl2.GetID (chunks20 trackIDs)).2, ?_⟩
          simp only [CreateOrUpdatePlaylist, hg2, hdel, hcr, hst, hdevts]
          simp

/-- Witness for C7 at the all-success oracle: two stored playlists match
the title X (one via the legacy name field), one does not. -/
theorem createOrUpdatePlaylist_upsert_witness :
    (CreateOrUpdatePlaylist okOracle "X" "d" ["t1", "t2"]).2 =
      (FindAllPlaylistsByName
          [{ id := "p1", uuid := "", title := "X", name := "", description := "" },
           { id := "p2", uuid := "", title := "Y", name := "", description := "" },
           { id := "p3", uuid := "u3", title := "", name := "X", description := "" }]
          "X").map
          (fun p => Event.deletePlaylist p.id)
        ++ [Event.createPlaylist "X" "d"]
        ++ (chunks20 ["t1", "t2"]).map
          (fun b => Event.setPlaylistTracks
            (Playlist.GetID
              { id := "newpl", uuid := "", title := "X", name := "", description := "d" })
            b) ∧
    (CreateOrUpdatePlaylist okOracle "X" "d" ["t1", "t2"]).2 =
      [Event.deletePlaylist "p1", Event.deletePlaylist "p3",
       Event.createPlaylist "X" "d",
       Event.setPlaylistTracks "newpl" ["t1", "t2"]] :=
  ⟨(createOrUpdatePlaylist_upsert okOracle "X" "d" ["t1", "t2"] _ _
      rfl (by decide) rfl (by decide)).1,
   by decide⟩

end TidalPlaylist

namespace TidalPlaylist

/-- C8: track attachment proceeds in consecutive batches of at most 20 IDs
preserving the original order — the batches passed to the write calls are
exactly the 20-chunks of the input, their concatenation is the input list,
and an input of 45 IDs produces exactly the three batches of sizes 20, 20
and 5. -/
theorem createOrUpdatePlaylist_batches (c : ClientOracle)
    (name description : String) (trackIDs : List String)
    (pls : List Playlist) (pl : Playlist)
    (hg : c.getUserPlaylists = some pls)
    (hd : ∀ p ∈ FindAllPlaylistsByName pls name, c.deletePlaylist p.id = true)
    (hc : c.createPlaylist name description = some pl)
    (hs : ∀ b ∈ chunks20 trackIDs, c.setPlaylistTracks pl.GetID b = true) :
    setBatches ((CreateOrUpdatePlaylist c name description trackIDs).2) =
      chunks20 trackIDs ∧
    (setBatches
      ((CreateOrUpdatePlaylist c name description trackIDs).2)).flatten =
      trackIDs ∧
    (∀ b ∈ setBatches ((CreateOrUpdatePlaylist c name description trackIDs).2),
      b.length ≤ 20) ∧
    (trackIDs.length = 45 →
      (setBatches
        ((CreateOrUpdatePlaylist c name description trackIDs).2)).map
          List.length = [20, 20, 5]) := by
  have htr := (createOrUpdatePlaylist_success_parts c name description
    trackIDs pls pl hg hd hc hs).2
  have hsb :
      setBatches ((CreateOrUpdatePlaylist c name description trackIDs).2) =
        chunks20 trackIDs := by
    rw [htr, setBatches_append, setBatches_append, setBatches_deletes,
      setBatches_create, setBatches_sets]
    simp
  refine ⟨hsb, ?_, ?_, ?_⟩
  · rw [hsb]; exact chunks20_flatten trackIDs
  · rw [hsb]; exact chunks20_sizes trackIDs
  · intro h45; rw [hsb]; exact chunks20_len45 trackIDs h45

/-- Witness for C8 with 45 track IDs at the all-success oracle. -/
theorem createOrUpdatePlaylist_batches_witness :
    setBatches
        ((CreateOrUpdatePlaylist okOracle "X" "d"
          (List.replicate 45 "t")).2) =
      chunks20 (List.replicate 45 "t") ∧
    (setBatches
      ((CreateOrUpdatePlaylist okOracle "X" "d"
        (List.replicate 45 "t")).2)).flatten = List.replicate 45 "t" ∧
    (∀ b ∈ setBatches
        ((CreateOrUpdatePlaylist okOracle "X" "d"
          (List.replicate 45 "t")).2), b.length ≤ 20) ∧
    (setBatches
      ((CreateOrUpdatePlaylist okOracle "X" "d"
        (List.replicate 45 "t")).2)).map List.length = [20, 20, 5] := by
  have h := createOrUpdatePlaylist_batches okOracle "X" "d"
    (List.replicate 45 "t") _ _ rfl (by decide) rfl
    (by intro b hb; rfl)
  exact ⟨h.1, h.2.1, h.2.2.1, h.2.2.2 (by decide)⟩

end TidalPlaylist

namespace TidalPlaylist

/-- C3 is violated by the code: the emptiness check runs on the
pre-compaction slice (whose length is the requested count), so a run in
which every collected slot is empty is not failed — it proceeds and
creates a playlist with no tracks. -/
theorem buildPlaylist_empty_final_still_creates :
    BuildPlaylist albumsFailOracle (fun _ => 0) 1 ⟨[], []⟩ "X" false =
      (Outcome.ok,
        [Event.createPlaylist "X" "Generated by tidal-playlist"], []) := by
  decide

/-- C9: in dry-run mode `BuildPlaylist` performs no remote mutation on any
run; a run that reaches the preview returns success without any upsert
call and previews at most the first 10 final tracks as first-artist-name /
title pairs. -/
theorem buildPlaylist_dryRun_spec (c : ClientOracle) (r : Nat → Nat)
    (count : Nat) (filters : FiltersConfig) (name : String)
    (artists : List ArtistID) (selected : List ArtistID)
    (tracks : List (Option Track)) :
    (BuildPlaylist c r count filters name true).2.1 = [] ∧
    (c.getFavoriteArtists = some artists →
      (FilterArtists filters artists).length ≠ 0 →
      selectRandomItems r count (FilterArtists filters artists) =
        some selected →
      (CollectTracks c r count selected).1 = Except.ok tracks →
      tracks.length ≠ 0 →
      BuildPlaylist c r count filters name true =
        (Outcome.ok, [],
          ((tracks.filterMap id).take 10).map
            (fun t => (firstArtistName t, t.title))) ∧
      (((tracks.filterMap id).take 10).map
          (fun t => (firstArtistName t, t.title))).length ≤ 10) := by
  constructor
  · simp only [BuildPlaylist]
    repeat' split
    all_goals first | rfl | simp_all
  · intro hfav hfil hsel hcol hne
    constructor
    · simp [BuildPlaylist, hfav, hfil, hsel, hcol, hne]
    · calc (((tracks.filterMap id).take 10).map
            (fun t => (firstArtistName t, t.title))).length
          = ((tracks.filterMap id).take 10).length := List.length_map _ _
        _ ≤ 10 := List.length_take_le 10 _

/-- Witness for C9: a dry run over the all-success oracle previews the two
collected tracks and issues no mutation call. -/
theorem buildPlaylist_dryRun_spec_witness :
    (BuildPlaylist okOracle (fun _ => 0) 2 ⟨[], []⟩ "X" true).2.1 = [] ∧
    BuildPlaylist okOracle (fun _ => 0) 2 ⟨[], []⟩ "X" true =
      (Outcome.ok, [],
        ((([some { id := "trk-alb-b", title := "Talb-b", duration := 100, artists := [] },
            some { id := "trk-alb-b", title := "Talb-b", duration := 100, artists := [] }] :
              List (Option Track)).filterMap id).take 10).map
          (fun t => (firstArtistName t, t.title))) :=
  ⟨(buildPlaylist_dryRun_spec okOracle (fun _ => 0) 2 ⟨[], []⟩ "X"
      [⟨"b"⟩, ⟨"a"⟩] [⟨"b"⟩, ⟨"b"⟩]
      [some { id := "trk-alb-b", title := "Talb-b", duration := 100, artists := [] },
       some { id := "trk-alb-b", title := "Talb-b", duration := 100, artists := [] }]).1,
   ((buildPlaylist_dryRun_spec okOracle (fun _ => 0) 2 ⟨[], []⟩ "X"
      [⟨"b"⟩, ⟨"a"⟩] [⟨"b"⟩, ⟨"b"⟩]
      [some { id := "trk-alb-b", title := "Talb-b", duration := 100, artists := [] },
       some { id := "trk-alb-b", title := "Talb-b", duration := 100, artists := [] }]).2
      (by decide) (by decide) (by decide) (by decide) (by decide)).1⟩

/-- C10: the sampling draw panics exactly when the source is empty and at
least one draw is requested; a non-empty source never panics; and
`BuildPlaylist` aborts with an error before sampling whenever the filtered
artist set is empty, so its sampling call always receives a non-empty
source and succeeds. -/
theorem selectRandomItems_safety (count : Nat) (src : List ArtistID)
    (c : ClientOracle) (r : Nat → Nat) (filters : FiltersConfig)
    (name : String) (dryRun : Bool) (artists : List ArtistID) :
    (1 ≤ count → selectRandomItems r count ([] : List ArtistID) = none) ∧
    (src ≠ [] → ∃ res, selectRandomItems r count src = some res) ∧
    (c.getFavoriteArtists = some artists →
      (FilterArtists filters artists).length = 0 →
      BuildPlaylist c r count filters name dryRun =
        (Outcome.errorMsg "no artists remaining after filtering", [], [])) ∧
    (c.getFavoriteArtists = some artists →
      (FilterArtists filters artists).length ≠ 0 →
      ∃ sel, selectRandomItems r count (FilterArtists filters artists) =
        some sel) := by
  refine ⟨?_, ?_, ?_, ?_⟩
  · intro hc
    cases count with
    | zero => omega
    | succ k => simp [selectRandomItems, selectRandomItemsAux]
  · intro hsrc
    obtain ⟨res, hres, _, _⟩ := selectRandomItemsAux_ok r src hsrc count 0
    exact ⟨res, hres⟩
  · intro hfav hfil
    simp only [BuildPlaylist, hfav, hfil, if_true]
  · intro hfav hfil
    have hsrc : FilterArtists filters artists ≠ [] := fun h0 =>
      hfil (by simp [h0])
    obtain ⟨res, hres, _, _⟩ :=
      selectRandomItemsAux_ok r (FilterArtists filters artists) hsrc count 0
    exact ⟨res, hres⟩

/-- Witness for C10: empty source with one draw panics, singleton source
succeeds, an all-excluding whitelist aborts the build before sampling, and
the unfiltered favorite list samples successfully. -/
theorem selectRandomItems_safety_witness :
    selectRandomItems (fun _ => 0) 1 ([] : List ArtistID) = none ∧
    (∃ res, selectRandomItems (fun _ => 0) 1
      [(⟨"a"⟩ : ArtistID)] = some res) ∧
    BuildPlaylist okOracle (fun _ => 0) 1 ⟨[], ["zzz"]⟩ "X" false =
      (Outcome.errorMsg "no artists remaining after filtering", [], []) ∧
    (∃ sel, selectRandomItems (fun _ => 0) 1
        (FilterArtists ⟨[], []⟩ [⟨"b"⟩, ⟨"a"⟩]) = some sel) :=
  ⟨(selectRandomItems_safety 1 [] okOracle (fun _ => 0) ⟨[], []⟩ "X" false
      [⟨"b"⟩, ⟨"a"⟩]).1 (by decide),
   (selectRandomItems_safety 1 [⟨"a"⟩] okOracle (fun _ => 0) ⟨[], []⟩ "X"
      false [⟨"b"⟩, ⟨"a"⟩]).2.1 (by decide),
   (selectRandomItems_safety 1 [] okOracle (fun _ => 0) ⟨[], ["zzz"]⟩ "X"
      false [⟨"b"⟩, ⟨"a"⟩]).2.2.1 rfl (by decide),
   (selectRandomItems_safety 1 [] okOracle (fun _ => 0) ⟨[], []⟩ "X" false
      [⟨"b"⟩, ⟨"a"⟩]).2.2.2 rfl (by decide)⟩

end TidalPlaylist
